import Mathlib

/-!
# Verification of the MQTT packet-framing core

Shallow embedding of the packet-framing and polymorphic dispatch layer of an
MQTT-style codec: the fixed-header codec, the generic packet contract with its
blanket encode/decode behaviour, the concrete zero-payload Disconnect packet,
and the aggregate `VariablePacket` dispatcher generated by the
`impl_variable_packet!` macro (whose invocation lists thirteen concrete kinds).

Byte streams are modelled as lists of naturals below 256 read through a cursor
with an explicit read bound (the counterpart of `std::io::Read` combined with
`Read::take`); writers are modelled by returning the list of bytes written.
Fallible operations return `Except`.
-/

namespace Mqtt

/-- Modelled from the spec: the underlying I/O failure of a byte source
(`std::io::Error` is outside the sources).  In this pure model the only I/O
failure is an attempted read past the end of the available bytes or past the
reader's bound — a short read (`UnexpectedEof`). -/
inductive IoErr where
  | UnexpectedEof
deriving DecidableEq

/-- Modelled from the spec: a bounded byte source (`std::io::Read` plus the
`take` combinator are outside the sources).  `limit` is how many further bytes
may be read; `bytes` are the bytes still available.  A plain cursor over a
byte string has `limit` equal to the number of available bytes. -/
structure Rdr where
  limit : Nat
  bytes : List Nat
deriving DecidableEq

/-- A plain cursor over a byte string: the bound never bites before the end. -/
def Rdr.ofList (bs : List Nat) : Rdr := ⟨bs.length, bs⟩

/-- Modelled from the spec: reading one byte; fails with a short read when the
bound is exhausted or no byte is available. -/
def read1 : Rdr → Except IoErr (Nat × Rdr)
  | ⟨0, _⟩ => .error .UnexpectedEof
  | ⟨_ + 1, []⟩ => .error .UnexpectedEof
  | ⟨l + 1, b :: rest⟩ => .ok (b, ⟨l, rest⟩)

/-- Modelled from the spec: `Read::take(n)` — the same bytes, with reads
additionally bounded by `n` (the outer bound keeps applying). -/
def Rdr.take (r : Rdr) (n : Nat) : Rdr := ⟨min n r.limit, r.bytes⟩

/-- Modelled from the spec: the closed enumeration of the fourteen protocol
packet kinds (`control::ControlType` is outside the sources; the spec lists the
fourteen names). -/
inductive ControlType where
  | Connect
  | ConnectAcknowledgement
  | Publish
  | PublishAcknowledgement
  | PublishReceived
  | PublishRelease
  | PublishComplete
  | Subscribe
  | SubscribeAcknowledgement
  | Unsubscribe
  | UnsubscribeAcknowledgement
  | PingRequest
  | PingResponse
  | Disconnect
deriving DecidableEq

/-- Modelled from the spec: the protocol-defined control-type code, the high
nibble of the tag byte (codes 1–14). -/
def ControlType.toCode : ControlType → Nat
  | .Connect => 1
  | .ConnectAcknowledgement => 2
  | .Publish => 3
  | .PublishAcknowledgement => 4
  | .PublishReceived => 5
  | .PublishRelease => 6
  | .PublishComplete => 7
  | .Subscribe => 8
  | .SubscribeAcknowledgement => 9
  | .Unsubscribe => 10
  | .UnsubscribeAcknowledgement => 11
  | .PingRequest => 12
  | .PingResponse => 13
  | .Disconnect => 14

/-- Modelled from the spec: the inverse mapping from a tag nibble to a control
type; nibbles with no mapping (0 and 15) are rejected. -/
def ControlType.fromCode : Nat → Option ControlType
  | 1 => some .Connect
  | 2 => some .ConnectAcknowledgement
  | 3 => some .Publish
  | 4 => some .PublishAcknowledgement
  | 5 => some .PublishReceived
  | 6 => some .PublishRelease
  | 7 => some .PublishComplete
  | 8 => some .Subscribe
  | 9 => some .SubscribeAcknowledgement
  | 10 => some .Unsubscribe
  | 11 => some .UnsubscribeAcknowledgement
  | 12 => some .PingRequest
  | 13 => some .PingResponse
  | 14 => some .Disconnect
  | _ => none

/-- Modelled from the spec: each control type's fixed, well-known default flags
nibble (most types fixed; Publish's flags carry per-packet semantics owned by
that kind and default to 0 here).  The protocol-defined fixed values are 2 for
PublishRelease, Subscribe and Unsubscribe, and 0 for every other type; the spec
pins Disconnect's default to 0 (tag byte 0xE0). -/
def ControlType.defaultFlags : ControlType → Nat
  | .PublishRelease => 2
  | .Subscribe => 2
  | .Unsubscribe => 2
  | _ => 0

/-- Modelled from the spec: a control type plus its 4 flag bits
(`control::PacketType` is outside the sources). -/
structure PacketType where
  control_type : ControlType
  flags : Nat
deriving DecidableEq

/-- Modelled from the spec: construct a packet type from a control type using
its documented default flags. -/
def PacketType.with_default (ct : ControlType) : PacketType :=
  ⟨ct, ct.defaultFlags⟩

/-- Modelled from the spec: the tag byte — control-type nibble shifted high,
flags nibble low. -/
def PacketType.toByte (pt : PacketType) : Nat :=
  pt.control_type.toCode * 16 + pt.flags

/-- Modelled from the spec: fixed-header decode failures (`FixedHeaderError`
is outside the sources): an unmapped control-type nibble, a malformed or
out-of-range remaining-length field, or an underlying I/O failure. -/
inductive FixedHeaderError where
  | MalformedRemainingLength
  | UnrecognizedControlType (code : Nat)
  | IoError (e : IoErr)
deriving DecidableEq

/-- Modelled from the spec: the fixed header — packet type plus the declared
remaining length (at most 268435455 on the wire). -/
structure FixedHeader where
  packet_type : PacketType
  remaining_length : Nat
deriving DecidableEq

/-- Modelled from the spec: fixed-header construction. -/
def FixedHeader.new (pt : PacketType) (n : Nat) : FixedHeader :=
  ⟨pt, n⟩

/-- Modelled from the spec: the minimal base-128 continuation-bit encoding of a
remaining length, 1–4 bytes, each byte holding 7 data bits low-to-high with the
high bit signalling continuation.  Defined on the legal range (the wire format
caps the field at 4 bytes / 268435455). -/
def encodeRemLen (n : Nat) : List Nat :=
  if n < 128 then [n]
  else if n < 16384 then [n % 128 + 128, n / 128]
  else if n < 2097152 then [n % 128 + 128, n / 128 % 128 + 128, n / 16384]
  else [n % 128 + 128, n / 128 % 128 + 128, n / 16384 % 128 + 128, n / 2097152]

/-- Modelled from the spec: the byte count of the encoded remaining-length
field (1–4 bytes by range). -/
def remLenSize (n : Nat) : Nat :=
  if n < 128 then 1
  else if n < 16384 then 2
  else if n < 2097152 then 3
  else 4

/-- Modelled from the spec: one step of remaining-length decoding.  `fuel`
enforces the hard cap of 4 bytes (and with it the maximum value 268435455);
`i` is the index of the byte being read; `acc` the value accumulated so far.
A final byte of zero after a continuation byte is a non-minimal (over-long)
encoding and is rejected. -/
def decodeRemLenGo : Nat → Rdr → Nat → Nat → Except FixedHeaderError (Nat × Rdr)
  | 0, _, _, _ => .error .MalformedRemainingLength
  | fuel + 1, r, i, acc =>
    match read1 r with
    | .error e => .error (.IoError e)
    | .ok (b, r') =>
      let acc' := acc + b % 128 * 128 ^ i
      if b < 128 then
        if 0 < i ∧ b = 0 then .error .MalformedRemainingLength
        else .ok (acc', r')
      else decodeRemLenGo fuel r' (i + 1) acc'

/-- Modelled from the spec: decode the remaining-length varint (hard cap of 4
bytes / maximum value 268435455). -/
def decodeRemLen (r : Rdr) : Except FixedHeaderError (Nat × Rdr) :=
  decodeRemLenGo 4 r 0 0

/-- Modelled from the spec: fixed-header encoding — the tag byte followed by
the minimally encoded remaining length. -/
def FixedHeader.encode (fh : FixedHeader) : List Nat :=
  fh.packet_type.toByte :: encodeRemLen fh.remaining_length

/-- Modelled from the spec: the byte count of an encoded fixed header. -/
def FixedHeader.encodedLength (fh : FixedHeader) : Nat :=
  1 + remLenSize fh.remaining_length

/-- Modelled from the spec: fixed-header decoding — read the tag byte, map the
high nibble to a control type (failing if no mapping exists), take the low
nibble as flags, then read the remaining-length varint. -/
def FixedHeader.decode (r : Rdr) : Except FixedHeaderError (FixedHeader × Rdr) :=
  match read1 r with
  | .error e => .error (.IoError e)
  | .ok (b, r₁) =>
    match ControlType.fromCode (b / 16) with
    | none => .error (.UnrecognizedControlType (b / 16))
    | some ct =>
      match decodeRemLen r₁ with
      | .error e => .error e
      | .ok (n, r₂) => .ok (⟨⟨ct, b % 16⟩, n⟩, r₂)

/-- The headers the wire format can carry: a 4-bit flags nibble and a
remaining length within the varint range. -/
def FixedHeader.Valid (fh : FixedHeader) : Prop :=
  fh.packet_type.flags < 16 ∧ fh.remaining_length ≤ 268435455

/-- Modelled from the spec: variable-header decode failures of the primitive
codec (`VariableHeaderError` is outside the sources); its precise cases do not
matter here, only its presence as a `PacketError` case. -/
inductive VariableHeaderError where
  | Malformed
deriving DecidableEq

/-- Modelled from the spec: length-prefixed-text encoding failures
(`StringEncodeError` is outside the sources); only its presence as a
`PacketError` case matters here. -/
inductive StringEncodeError where
  | Malformed
deriving DecidableEq

/-- The per-kind packet error (`PacketError<'a, T>` in `packet/mod.rs`),
parametrised by the payload codec's error type `PE`. -/
inductive PacketError (PE : Type) where
  | FixedHeaderError (e : FixedHeaderError)
  | VariableHeaderError (e : VariableHeaderError)
  | PayloadError (e : PE)
  | MalformedPacket (s : String)
  | StringEncodeError (e : StringEncodeError)
  | IoError (e : IoErr)

/-- The five operations of the `Packet` trait of `packet/mod.rs`, together
with the payload's own codec (the trait requires `Payload : Encodable +
Decodable`; the blanket impls use the payload only through `encode` and
`encoded_length`). -/
structure PacketOps (P Payload PE : Type) where
  fixed_header : P → FixedHeader
  payload : P → Payload
  payload_encode : Payload → Except PE (List Nat)
  payload_encoded_length : Payload → Nat
  encode_variable_headers : P → Except (PacketError PE) (List Nat)
  encoded_variable_headers_length : P → Nat
  decode_packet : Rdr → FixedHeader → Except (PacketError PE) (P × Rdr)

/-- The blanket `Encodable::encode` for `T: Packet`: write the fixed header,
then the variable headers, then the payload; a payload encoding failure is
wrapped as `PayloadError`. -/
def Packet.encode {P Payload PE : Type} (ops : PacketOps P Payload PE) (p : P) :
    Except (PacketError PE) (List Nat) :=
  match ops.encode_variable_headers p with
  | .error e => .error e
  | .ok vh =>
    match ops.payload_encode (ops.payload p) with
    | .error e => .error (.PayloadError e)
    | .ok pl => .ok ((ops.fixed_header p).encode ++ vh ++ pl)

/-- The blanket `Encodable::encoded_length` for `T: Packet`: fixed-header
length plus variable-header length plus payload length. -/
def Packet.encodedLength {P Payload PE : Type} (ops : PacketOps P Payload PE) (p : P) : Nat :=
  (ops.fixed_header p).encodedLength
    + ops.encoded_variable_headers_length p
    + ops.payload_encoded_length (ops.payload p)

/-- The blanket `Decodable::decode_with` for `T: Packet`: use the supplied
fixed header if there is one, otherwise decode one from the stream; then call
the kind's `decode_packet` with that header. -/
def Packet.decodeWith {P Payload PE : Type} (ops : PacketOps P Payload PE)
    (r : Rdr) (fixed_header : Option FixedHeader) :
    Except (PacketError PE) (P × Rdr) :=
  match fixed_header with
  | some hdr => ops.decode_packet r hdr
  | none =>
    match FixedHeader.decode r with
    | .error e => .error (.FixedHeaderError e)
    | .ok (hdr, r₁) => ops.decode_packet r₁ hdr

/-- The Disconnect packet of `packet/disconnect.rs`: a fixed header and a unit
payload. -/
structure DisconnectPacket where
  fixed_header : FixedHeader
  payload : Unit
deriving DecidableEq

/-- `DisconnectPacket::new`: the fixed header built from Disconnect's default
packet type with remaining length 0, and the unit payload. -/
def DisconnectPacket.new : DisconnectPacket :=
  ⟨FixedHeader.new (PacketType.with_default .Disconnect) 0, ()⟩

/-- The `Packet` impl of `packet/disconnect.rs`: variable-header encoding
writes nothing and always succeeds, the variable-header length is 0, and
`decode_packet` ignores the byte source and wraps the supplied fixed header
with the unit payload.  The unit payload encodes to no bytes with length 0 and
cannot fail (its error type is empty). -/
def DisconnectPacket.ops : PacketOps DisconnectPacket Unit Empty where
  fixed_header := DisconnectPacket.fixed_header
  payload := DisconnectPacket.payload
  payload_encode := fun _ => .ok []
  payload_encoded_length := fun _ => 0
  encode_variable_headers := fun _ => .ok []
  encoded_variable_headers_length := fun _ => 0
  decode_packet := fun r fh => .ok (⟨fh, ()⟩, r)

/-- Modelled from the spec: a concrete packet kind conforming to the Packet
contract.  The thirteen concrete kinds listed by the `impl_variable_packet!`
invocation other than the kinds shown in the sources are external
collaborators specified only through the contract's five operations, so each
is an abstract type bundled with its operations. -/
structure KindImpl where
  P : Type
  Payload : Type
  PE : Type
  ops : PacketOps P Payload PE

/-- Modelled from the spec: the instantiation table of the
`impl_variable_packet!` macro — one concrete kind per listed name, in the
order of the invocation in `packet/mod.rs`.  `DisconnectPacket` is not in
that list. -/
structure Impls where
  connect : KindImpl
  connack : KindImpl
  publish : KindImpl
  puback : KindImpl
  pubrec : KindImpl
  pubrel : KindImpl
  pubcomp : KindImpl
  pingreq : KindImpl
  pingresp : KindImpl
  subscribe : KindImpl
  suback : KindImpl
  unsubscribe : KindImpl
  unsuback : KindImpl

/-- The sum type generated by `impl_variable_packet!`: one case per listed
concrete kind — thirteen cases, none for Disconnect. -/
inductive VariablePacket (I : Impls) where
  | ConnectPacket (pk : I.connect.P)
  | ConnackPacket (pk : I.connack.P)
  | PublishPacket (pk : I.publish.P)
  | PubackPacket (pk : I.puback.P)
  | PubrecPacket (pk : I.pubrec.P)
  | PubrelPacket (pk : I.pubrel.P)
  | PubcompPacket (pk : I.pubcomp.P)
  | PingreqPacket (pk : I.pingreq.P)
  | PingrespPacket (pk : I.pingresp.P)
  | SubscribePacket (pk : I.subscribe.P)
  | SubackPacket (pk : I.suback.P)
  | UnsubscribePacket (pk : I.unsubscribe.P)
  | UnsubackPacket (pk : I.unsuback.P)

/-- The aggregate error generated by `impl_variable_packet!`: a fixed-header
error, the unrecognized-fixed-header case carrying the offending header, and
one wrapped per-kind error per listed concrete kind. -/
inductive VariablePacketError (I : Impls) where
  | FixedHeaderError (e : FixedHeaderError)
  | UnrecognizedFixedHeader (fh : FixedHeader)
  | ConnectPacketError (e : PacketError I.connect.PE)
  | ConnackPacketError (e : PacketError I.connack.PE)
  | PublishPacketError (e : PacketError I.publish.PE)
  | PubackPacketError (e : PacketError I.puback.PE)
  | PubrecPacketError (e : PacketError I.pubrec.PE)
  | PubrelPacketError (e : PacketError I.pubrel.PE)
  | PubcompPacketError (e : PacketError I.pubcomp.PE)
  | PingreqPacketError (e : PacketError I.pingreq.PE)
  | PingrespPacketError (e : PacketError I.pingresp.PE)
  | SubscribePacketError (e : PacketError I.subscribe.PE)
  | SubackPacketError (e : PacketError I.suback.PE)
  | UnsubscribePacketError (e : PacketError I.unsubscribe.PE)
  | UnsubackPacketError (e : PacketError I.unsuback.PE)

/-- The body template of each dispatch arm generated by
`impl_variable_packet!`: invoke the kind's `decode_packet`, lifting its error
into the aggregate error and wrapping its result as the aggregate case. -/
def VariablePacket.decodeArm {P Payload PE : Type} {I : Impls}
    (ops : PacketOps P Payload PE) (wrap : P → VariablePacket I)
    (werr : PacketError PE → VariablePacketError I)
    (r : Rdr) (fh : FixedHeader) :
    Except (VariablePacketError I) (VariablePacket I × Rdr) :=
  match ops.decode_packet r fh with
  | .error e => .error (werr e)
  | .ok (pk, r') => .ok (wrap pk, r')

/-- `VariablePacket`'s `Decodable::decode_with`: use the supplied fixed header
or decode one, restrict the source to the declared remaining length, then
switch on the header's control type over the thirteen listed kinds; any other
control type falls to the catch-all arm and fails with
`UnrecognizedFixedHeader` carrying the header. -/
def VariablePacket.decodeWith (I : Impls) (r : Rdr) (fixed_header : Option FixedHeader) :
    Except (VariablePacketError I) (VariablePacket I × Rdr) :=
  match (match fixed_header with
         | some fh => .ok (fh, r)
         | none =>
           match FixedHeader.decode r with
           | .error e => .error (VariablePacketError.FixedHeaderError e)
           | .ok (fh, r₁) => .ok (fh, r₁) :
         Except (VariablePacketError I) (FixedHeader × Rdr)) with
  | .error e => .error e
  | .ok (fh, r₁) =>
    let rt := r₁.take fh.remaining_length
    match fh.packet_type.control_type with
    | .Connect => decodeArm I.connect.ops .ConnectPacket .ConnectPacketError rt fh
    | .ConnectAcknowledgement => decodeArm I.connack.ops .ConnackPacket .ConnackPacketError rt fh
    | .Publish => decodeArm I.publish.ops .PublishPacket .PublishPacketError rt fh
    | .PublishAcknowledgement => decodeArm I.puback.ops .PubackPacket .PubackPacketError rt fh
    | .PublishReceived => decodeArm I.pubrec.ops .PubrecPacket .PubrecPacketError rt fh
    | .PublishRelease => decodeArm I.pubrel.ops .PubrelPacket .PubrelPacketError rt fh
    | .PublishComplete => decodeArm I.pubcomp.ops .PubcompPacket .PubcompPacketError rt fh
    | .PingRequest => decodeArm I.pingreq.ops .PingreqPacket .PingreqPacketError rt fh
    | .PingResponse => decodeArm I.pingresp.ops .PingrespPacket .PingrespPacketError rt fh
    | .Subscribe => decodeArm I.subscribe.ops .SubscribePacket .SubscribePacketError rt fh
    | .SubscribeAcknowledgement => decodeArm I.suback.ops .SubackPacket .SubackPacketError rt fh
    | .Unsubscribe => decodeArm I.unsubscribe.ops .UnsubscribePacket .UnsubscribePacketError rt fh
    | .UnsubscribeAcknowledgement => decodeArm I.unsuback.ops .UnsubackPacket .UnsubackPacketError rt fh
    | _ => .error (.UnrecognizedFixedHeader fh)

/-- `VariablePacket`'s `Encodable::encode`: route to the held variant's own
blanket encode, lifting its error into the aggregate error type. -/
def VariablePacket.encode {I : Impls} :
    VariablePacket I → Except (VariablePacketError I) (List Nat)
  | .ConnectPacket pk => (Packet.encode I.connect.ops pk).mapError .ConnectPacketError
  | .ConnackPacket pk => (Packet.encode I.connack.ops pk).mapError .ConnackPacketError
  | .PublishPacket pk => (Packet.encode I.publish.ops pk).mapError .PublishPacketError
  | .PubackPacket pk => (Packet.encode I.puback.ops pk).mapError .PubackPacketError
  | .PubrecPacket pk => (Packet.encode I.pubrec.ops pk).mapError .PubrecPacketError
  | .PubrelPacket pk => (Packet.encode I.pubrel.ops pk).mapError .PubrelPacketError
  | .PubcompPacket pk => (Packet.encode I.pubcomp.ops pk).mapError .PubcompPacketError
  | .PingreqPacket pk => (Packet.encode I.pingreq.ops pk).mapError .PingreqPacketError
  | .PingrespPacket pk => (Packet.encode I.pingresp.ops pk).mapError .PingrespPacketError
  | .SubscribePacket pk => (Packet.encode I.subscribe.ops pk).mapError .SubscribePacketError
  | .SubackPacket pk => (Packet.encode I.suback.ops pk).mapError .SubackPacketError
  | .UnsubscribePacket pk => (Packet.encode I.unsubscribe.ops pk).mapError .UnsubscribePacketError
  | .UnsubackPacket pk => (Packet.encode I.unsuback.ops pk).mapError .UnsubackPacketError

/-- `VariablePacket`'s `Encodable::encoded_length`: route to the held
variant's own blanket encoded length. -/
def VariablePacket.encodedLength {I : Impls} : VariablePacket I → Nat
  | .ConnectPacket pk => Packet.encodedLength I.connect.ops pk
  | .ConnackPacket pk => Packet.encodedLength I.connack.ops pk
  | .PublishPacket pk => Packet.encodedLength I.publish.ops pk
  | .PubackPacket pk => Packet.encodedLength I.puback.ops pk
  | .PubrecPacket pk => Packet.encodedLength I.pubrec.ops pk
  | .PubrelPacket pk => Packet.encodedLength I.pubrel.ops pk
  | .PubcompPacket pk => Packet.encodedLength I.pubcomp.ops pk
  | .PingreqPacket pk => Packet.encodedLength I.pingreq.ops pk
  | .PingrespPacket pk => Packet.encodedLength I.pingresp.ops pk
  | .SubscribePacket pk => Packet.encodedLength I.subscribe.ops pk
  | .SubackPacket pk => Packet.encodedLength I.suback.ops pk
  | .UnsubscribePacket pk => Packet.encodedLength I.unsubscribe.ops pk
  | .UnsubackPacket pk => Packet.encodedLength I.unsuback.ops pk

/-- Modelled from the spec: a minimal conforming concrete packet kind, used
only to instantiate the abstract kinds of the dispatch table for concrete
evaluations: a fixed header, a unit payload, variable headers of no bytes,
and a `decode_packet` that wraps the supplied header without reading. -/
structure TrivialPacket where
  fixed_header : FixedHeader
deriving DecidableEq

/-- Modelled from the spec: the contract operations of `TrivialPacket`. -/
def trivialKind : KindImpl where
  P := TrivialPacket
  Payload := Unit
  PE := Empty
  ops :=
    { fixed_header := TrivialPacket.fixed_header
      payload := fun _ => ()
      payload_encode := fun _ => .ok []
      payload_encoded_length := fun _ => 0
      encode_variable_headers := fun _ => .ok []
      encoded_variable_headers_length := fun _ => 0
      decode_packet := fun r fh => .ok (⟨fh⟩, r) }

/-- Modelled from the spec: the dispatch table with every abstract kind
instantiated by the minimal conforming kind. -/
def trivialImpls : Impls :=
  ⟨trivialKind, trivialKind, trivialKind, trivialKind, trivialKind, trivialKind,
   trivialKind, trivialKind, trivialKind, trivialKind, trivialKind, trivialKind,
   trivialKind⟩

/-- A `decode_packet` implementation that behaves like a sequence of reads
through its bounded source: on success it has consumed some `k` bytes within
the bound, decrementing the bound and dropping exactly those bytes. -/
def ReadLegal {P PE : Type} (dp : Rdr → FixedHeader → Except (PacketError PE) (P × Rdr)) : Prop :=
  ∀ r fh p r', dp r fh = .ok (p, r') →
    ∃ k, k ≤ r.limit ∧ k ≤ r.bytes.length ∧ r' = ⟨r.limit - k, r.bytes.drop k⟩

/-- Every kind of the dispatch table reads legally through its bounded
source. -/
def Impls.ReadLegalAll (I : Impls) : Prop :=
  ReadLegal I.connect.ops.decode_packet ∧
  ReadLegal I.connack.ops.decode_packet ∧
  ReadLegal I.publish.ops.decode_packet ∧
  ReadLegal I.puback.ops.decode_packet ∧
  ReadLegal I.pubrec.ops.decode_packet ∧
  ReadLegal I.pubrel.ops.decode_packet ∧
  ReadLegal I.pubcomp.ops.decode_packet ∧
  ReadLegal I.pingreq.ops.decode_packet ∧
  ReadLegal I.pingresp.ops.decode_packet ∧
  ReadLegal I.subscribe.ops.decode_packet ∧
  ReadLegal I.suback.ops.decode_packet ∧
  ReadLegal I.unsubscribe.ops.decode_packet ∧
  ReadLegal I.unsuback.ops.decode_packet

/-! ## Lemmas about the fixed-header codec and the bounded reader -/

theorem read1_ofList_cons (b : Nat) (bs : List Nat) :
    read1 (Rdr.ofList (b :: bs)) = .ok (b, Rdr.ofList bs) := rfl

/-- The four-branch remaining-length encoder produces exactly the byte count
given by the range table. -/
theorem encodeRemLen_length (n : Nat) : (encodeRemLen n).length = remLenSize n := by
  simp only [encodeRemLen, remLenSize]
  split_ifs <;> rfl

/-- Round-trip of the remaining-length varint: decoding the minimal encoding
of an in-range value yields the value back and leaves the trailing bytes. -/
theorem decodeRemLen_encodeRemLen (n : Nat) (hn : n ≤ 268435455) (rest : List Nat) :
    decodeRemLen (Rdr.ofList (encodeRemLen n ++ rest)) = .ok (n, Rdr.ofList rest) := by
  by_cases h1 : n < 128
  · have he : encodeRemLen n = [n] := by simp [encodeRemLen, h1]
    rw [he]
    simp only [List.cons_append, List.nil_append]
    rw [decodeRemLen]
    rw [decodeRemLenGo, read1_ofList_cons]
    simp only [h1, if_true]
    have hb : ¬(0 < 0 ∧ n = 0) := by omega
    simp only [hb, if_false, if_true]
    have : n % 128 = n := Nat.mod_eq_of_lt h1
    simp [this]
  · by_cases h2 : n < 16384
    · have he : encodeRemLen n = [n % 128 + 128, n / 128] := by
        simp [encodeRemLen, h1, h2]
      rw [he]
      simp only [List.cons_append, List.nil_append]
      rw [decodeRemLen]
      rw [decodeRemLenGo, read1_ofList_cons]
      have hb1 : ¬(n % 128 + 128 < 128) := by omega
      simp only [hb1, if_false]
      rw [decodeRemLenGo, read1_ofList_cons]
      have hb2 : n / 128 < 128 := by omega
      have hb3 : ¬(0 < 1 ∧ n / 128 = 0) := by omega
      simp only [hb2, if_true, hb3, if_false]
      have harith : 0 + (n % 128 + 128) % 128 * 128 ^ 0 + n / 128 % 128 * 128 ^ 1 = n := by
        have : (n / 128) % 128 = n / 128 := Nat.mod_eq_of_lt hb2
        rw [this]
        omega
      rw [harith]
    · by_cases h3 : n < 2097152
      · have he : encodeRemLen n = [n % 128 + 128, n / 128 % 128 + 128, n / 16384] := by
          simp [encodeRemLen, h1, h2, h3]
        rw [he]
        simp only [List.cons_append, List.nil_append]
        rw [decodeRemLen]
        rw [decodeRemLenGo, read1_ofList_cons]
        have hb1 : ¬(n % 128 + 128 < 128) := by omega
        simp only [hb1, if_false]
        rw [decodeRemLenGo, read1_ofList_cons]
        have hb2 : ¬(n / 128 % 128 + 128 < 128) := by omega
        simp only [hb2, if_false]
        rw [decodeRemLenGo, read1_ofList_cons]
        have hb3 : n / 16384 < 128 := by omega
        have hb4 : ¬(0 < 2 ∧ n / 16384 = 0) := by omega
        simp only [hb3, if_true, hb4, if_false]
        have harith : 0 + (n % 128 + 128) % 128 * 128 ^ 0 + (n / 128 % 128 + 128) % 128 * 128 ^ 1
            + n / 16384 % 128 * 128 ^ 2 = n := by
          have h16 : n / 16384 % 128 = n / 16384 := Nat.mod_eq_of_lt hb3
          rw [h16]
          omega
        rw [harith]
      · have he : encodeRemLen n =
            [n % 128 + 128, n / 128 % 128 + 128, n / 16384 % 128 + 128, n / 2097152] := by
          simp [encodeRemLen, h1, h2, h3]
        rw [he]
        simp only [List.cons_append, List.nil_append]
        rw [decodeRemLen]
        rw [decodeRemLenGo, read1_ofList_cons]
        have hb1 : ¬(n % 128 + 128 < 128) := by omega
        simp only [hb1, if_false]
        rw [decodeRemLenGo, read1_ofList_cons]
        have hb2 : ¬(n / 128 % 128 + 128 < 128) := by omega
        simp only [hb2, if_false]
        rw [decodeRemLenGo, read1_ofList_cons]
        have hb3 : ¬(n / 16384 % 128 + 128 < 128) := by omega
        simp only [hb3, if_false]
        rw [decodeRemLenGo, read1_ofList_cons]
        have hb4 : n / 2097152 < 128 := by omega
        have hb5 : ¬(0 < 3 ∧ n / 2097152 = 0) := by omega
        simp only [hb4, if_true, hb5, if_false]
        have harith : 0 + (n % 128 + 128) % 128 * 128 ^ 0 + (n / 128 % 128 + 128) % 128 * 128 ^ 1
            + (n / 16384 % 128 + 128) % 128 * 128 ^ 2 + n / 2097152 % 128 * 128 ^ 3 = n := by
          have h21 : n / 2097152 % 128 = n / 2097152 := Nat.mod_eq_of_lt hb4
          rw [h21]
          omega
        rw [harith]

theorem ControlType.fromCode_toCode (ct : ControlType) :
    ControlType.fromCode ct.toCode = some ct := by
  cases ct <;> rfl

/-- Round-trip of the fixed-header codec: decoding the encoding of a valid
header yields the header back and leaves the trailing bytes. -/
theorem FixedHeader.decode_encode (fh : FixedHeader) (hf : fh.Valid) (rest : List Nat) :
    FixedHeader.decode (Rdr.ofList (fh.encode ++ rest)) = .ok (fh, Rdr.ofList rest) := by
  obtain ⟨pt, rem⟩ := fh
  obtain ⟨ct, fl⟩ := pt
  obtain ⟨hfl, hrem⟩ := hf
  simp only [FixedHeader.encode, PacketType.toByte] at *
  rw [List.cons_append]
  have hdiv : (ct.toCode * 16 + fl) / 16 = ct.toCode := by omega
  have hmod : (ct.toCode * 16 + fl) % 16 = fl := by omega
  simp only [FixedHeader.decode, read1_ofList_cons, hdiv, hmod,
    ControlType.fromCode_toCode, decodeRemLen_encodeRemLen rem hrem rest]

theorem trivialKind_ReadLegal : ReadLegal trivialKind.ops.decode_packet := by
  intro r fh p r' h
  refine ⟨0, Nat.zero_le _, Nat.zero_le _, ?_⟩
  simp only [trivialKind, Except.ok.injEq, Prod.mk.injEq] at h
  obtain ⟨-, h2⟩ := h
  cases r
  simpa using h2.symm

theorem trivialImpls_ReadLegalAll : trivialImpls.ReadLegalAll :=
  ⟨trivialKind_ReadLegal, trivialKind_ReadLegal, trivialKind_ReadLegal,
   trivialKind_ReadLegal, trivialKind_ReadLegal, trivialKind_ReadLegal,
   trivialKind_ReadLegal, trivialKind_ReadLegal, trivialKind_ReadLegal,
   trivialKind_ReadLegal, trivialKind_ReadLegal, trivialKind_ReadLegal,
   trivialKind_ReadLegal⟩

/-- A dispatch arm over a read-legal kind consumes at most the bound of the
bounded source it is given. -/
theorem decodeArm_consumes {P Payload PE : Type} {I : Impls}
    (ops : PacketOps P Payload PE) (hleg : ReadLegal ops.decode_packet)
    (wrap : P → VariablePacket I) (werr : PacketError PE → VariablePacketError I)
    (rt : Rdr) (fh : FixedHeader) (pk : VariablePacket I) (r₂ : Rdr)
    (h : VariablePacket.decodeArm ops wrap werr rt fh = .ok (pk, r₂)) :
    ∃ k, k ≤ rt.limit ∧ r₂.bytes = rt.bytes.drop k := by
  unfold VariablePacket.decodeArm at h
  cases hdp : ops.decode_packet rt fh with
  | error e => rw [hdp] at h; exact absurd h (by simp)
  | ok v =>
    obtain ⟨q, r'⟩ := v
    rw [hdp] at h
    simp only [Except.ok.injEq, Prod.mk.injEq] at h
    obtain ⟨k, hk1, hk2, hk3⟩ := hleg rt fh q r' hdp
    obtain ⟨-, h2⟩ := h
    exact ⟨k, hk1, by rw [← h2, hk3]⟩

/-! ## The claims -/

/-- Claim C1 (failing evaluation).  The claim says the aggregate dispatcher
switches over all fourteen control types, Disconnect included.  The
`impl_variable_packet!` invocation lists only thirteen kinds — no Disconnect —
so decoding a Disconnect fixed header (bytes `0xE0 0x00`) reaches no concrete
case: it falls to the catch-all arm and fails with `UnrecognizedFixedHeader`
instead of dispatching to `DisconnectPacket::decode_packet`. -/
theorem c1_disconnect_not_dispatched :
    VariablePacket.decodeWith trivialImpls (Rdr.ofList [0xE0, 0x00]) none =
      .error (.UnrecognizedFixedHeader ⟨⟨.Disconnect, 0⟩, 0⟩) := rfl

/-- Claim C2.  Round-trip of the blanket codec for any kind satisfying the
Packet contract: if the kind's `decode_packet` inverts its variable-header and
payload encodings (the contract obligation of each concrete kind) and the
packet's fixed header is wire-representable, then decoding the bytes produced
by a successful encode yields the original packet with nothing left over. -/
theorem c2_decode_encode_roundtrip {P Payload PE : Type} (ops : PacketOps P Payload PE)
    (p : P) (vh pl bs : List Nat)
    (hfl : (ops.fixed_header p).packet_type.flags < 16)
    (hrem : (ops.fixed_header p).remaining_length ≤ 268435455)
    (hvh : ops.encode_variable_headers p = .ok vh)
    (hpl : ops.payload_encode (ops.payload p) = .ok pl)
    (hinv : ops.decode_packet (Rdr.ofList (vh ++ pl)) (ops.fixed_header p) =
      .ok (p, Rdr.ofList []))
    (henc : Packet.encode ops p = .ok bs) :
    Packet.decodeWith ops (Rdr.ofList bs) none = .ok (p, Rdr.ofList []) := by
  have hbs : bs = (ops.fixed_header p).encode ++ (vh ++ pl) := by
    unfold Packet.encode at henc
    rw [hvh, hpl] at henc
    simp only [Except.ok.injEq] at henc
    rw [← henc, List.append_assoc]
  subst hbs
  simp only [Packet.decodeWith, FixedHeader.decode_encode _ ⟨hfl, hrem⟩ (vh ++ pl)]
  exact hinv

/-- Claim C2, witness: the round-trip at the Disconnect packet. -/
theorem c2_witness :
    Packet.encode DisconnectPacket.ops DisconnectPacket.new = .ok [0xE0, 0x00] ∧
    Packet.decodeWith DisconnectPacket.ops (Rdr.ofList [0xE0, 0x00]) none =
      .ok (DisconnectPacket.new, Rdr.ofList []) :=
  ⟨rfl, c2_decode_encode_roundtrip DisconnectPacket.ops DisconnectPacket.new [] [] [0xE0, 0x00]
    (by decide) (by decide) rfl rfl rfl rfl⟩

/-- Claim C3 (failing evaluation).  The claim says a Disconnect packet wraps
infallibly into the aggregate and round-trips through the aggregate
dispatcher.  No `From<DisconnectPacket>` conversion is generated (Disconnect
is absent from the `impl_variable_packet!` list), and decoding the bytes of an
encoded Disconnect packet through the aggregate dispatcher fails with
`UnrecognizedFixedHeader` rather than returning the original value. -/
theorem c3_no_disconnect_aggregate_roundtrip :
    Packet.encode DisconnectPacket.ops DisconnectPacket.new = .ok [0xE0, 0x00] ∧
    VariablePacket.decodeWith trivialImpls (Rdr.ofList [0xE0, 0x00]) none =
      .error (.UnrecognizedFixedHeader
        (FixedHeader.new (PacketType.with_default .Disconnect) 0)) :=
  ⟨rfl, rfl⟩

/-- Claim C4.  For any kind satisfying the Packet contract, with the
contract's length invariants (variable-header and payload lengths equal the
bytes those stages actually write), the declared `encoded_length` equals the
exact number of bytes produced by a successful `encode`. -/
theorem c4_encoded_length_exact {P Payload PE : Type} (ops : PacketOps P Payload PE)
    (p : P) (vh pl bs : List Nat)
    (hrem : (ops.fixed_header p).remaining_length ≤ 268435455)
    (hvh : ops.encode_variable_headers p = .ok vh)
    (hvhlen : vh.length = ops.encoded_variable_headers_length p)
    (hpl : ops.payload_encode (ops.payload p) = .ok pl)
    (hpllen : pl.length = ops.payload_encoded_length (ops.payload p))
    (henc : Packet.encode ops p = .ok bs) :
    bs.length = Packet.encodedLength ops p := by
  have hbs : bs = (ops.fixed_header p).encode ++ vh ++ pl := by
    unfold Packet.encode at henc
    rw [hvh, hpl] at henc
    simp only [Except.ok.injEq] at henc
    exact henc.symm
  subst hbs
  simp only [List.length_append, FixedHeader.encode, List.length_cons,
    encodeRemLen_length, Packet.encodedLength, FixedHeader.encodedLength,
    hvhlen, hpllen]
  omega

/-- Claim C4, witness: the length invariant at the Disconnect packet. -/
theorem c4_witness :
    Packet.encode DisconnectPacket.ops DisconnectPacket.new = .ok [0xE0, 0x00] ∧
    ([0xE0, 0x00] : List Nat).length =
      Packet.encodedLength DisconnectPacket.ops DisconnectPacket.new :=
  ⟨rfl, c4_encoded_length_exact DisconnectPacket.ops DisconnectPacket.new [] [] [0xE0, 0x00]
    (by decide) rfl rfl rfl rfl rfl⟩

/-- Claim C5, corrected.  The aggregate dispatcher restricts the byte source
to the declared remaining length, so a successful decode consumes at most
`remaining_length` bytes beyond the fixed header (provided every dispatched
kind reads only through the bounded source), and any read attempted once the
bound is exhausted fails with a short-read error.  The original claim's
further assertion — that decode always fails with a truncated-input error when
`remaining_length` exceeds the bytes available — is refuted by
`c5_counterexample`. -/
theorem c5_bounded_consumption (I : Impls) (hleg : I.ReadLegalAll)
    (bs : List Nat) (fh : FixedHeader) (r₁ : Rdr)
    (pk : VariablePacket I) (r₂ : Rdr)
    (hdec : FixedHeader.decode (Rdr.ofList bs) = .ok (fh, r₁))
    (hok : VariablePacket.decodeWith I (Rdr.ofList bs) none = .ok (pk, r₂)) :
    (∃ k, k ≤ fh.remaining_length ∧ r₂.bytes = r₁.bytes.drop k) ∧
    ∀ r : Rdr, r.limit = 0 → read1 r = .error .UnexpectedEof := by
  constructor
  · simp only [VariablePacket.decodeWith, hdec] at hok
    obtain ⟨hleg1, hleg2, hleg3, hleg4, hleg5, hleg6, hleg7, hleg8, hleg9,
      hleg10, hleg11, hleg12, hleg13⟩ := hleg
    have step : ∀ {Q QPayload QPE : Type} (ops : PacketOps Q QPayload QPE),
        ReadLegal ops.decode_packet →
        ∀ (wrap : Q → VariablePacket I) (werr : PacketError QPE → VariablePacketError I),
        VariablePacket.decodeArm ops wrap werr (r₁.take fh.remaining_length) fh =
          .ok (pk, r₂) →
        ∃ k, k ≤ fh.remaining_length ∧ r₂.bytes = r₁.bytes.drop k := by
      intro Q QPayload QPE ops hl wrap werr h
      obtain ⟨k, hk1, hk2⟩ := decodeArm_consumes ops hl wrap werr _ fh pk r₂ h
      exact ⟨k, le_trans hk1 (min_le_left _ _), hk2⟩
    cases hct : fh.packet_type.control_type
    case Disconnect => rw [hct] at hok; exact absurd hok (by simp)
    case Connect => rw [hct] at hok; exact step I.connect.ops hleg1 _ _ hok
    case ConnectAcknowledgement => rw [hct] at hok; exact step I.connack.ops hleg2 _ _ hok
    case Publish => rw [hct] at hok; exact step I.publish.ops hleg3 _ _ hok
    case PublishAcknowledgement => rw [hct] at hok; exact step I.puback.ops hleg4 _ _ hok
    case PublishReceived => rw [hct] at hok; exact step I.pubrec.ops hleg5 _ _ hok
    case PublishRelease => rw [hct] at hok; exact step I.pubrel.ops hleg6 _ _ hok
    case PublishComplete => rw [hct] at hok; exact step I.pubcomp.ops hleg7 _ _ hok
    case PingRequest => rw [hct] at hok; exact step I.pingreq.ops hleg8 _ _ hok
    case PingResponse => rw [hct] at hok; exact step I.pingresp.ops hleg9 _ _ hok
    case Subscribe => rw [hct] at hok; exact step I.subscribe.ops hleg10 _ _ hok
    case SubscribeAcknowledgement => rw [hct] at hok; exact step I.suback.ops hleg11 _ _ hok
    case Unsubscribe => rw [hct] at hok; exact step I.unsubscribe.ops hleg12 _ _ hok
    case UnsubscribeAcknowledgement => rw [hct] at hok; exact step I.unsuback.ops hleg13 _ _ hok
  · intro r h
    obtain ⟨lim, bs'⟩ := r
    have : lim = 0 := h
    subst this
    rfl

/-- Claim C5, counterexample to the original statement.  Bytes `0xE0 0x05`
declare remaining length 5 with no bytes available, yet aggregate decode fails
with `UnrecognizedFixedHeader` — not with a truncated-input (short-read)
error. -/
theorem c5_counterexample :
    (⟨⟨.Disconnect, 0⟩, 5⟩ : FixedHeader).remaining_length = 5 ∧
    VariablePacket.decodeWith trivialImpls (Rdr.ofList [0xE0, 0x05]) none =
      .error (.UnrecognizedFixedHeader ⟨⟨.Disconnect, 0⟩, 5⟩) :=
  ⟨rfl, rfl⟩

/-- Claim C5, witness for the corrected statement: a successful aggregate
decode of `0x10 0x00` (Connect, remaining length 0) consumes no bytes beyond
the bound. -/
theorem c5_witness :
    trivialImpls.ReadLegalAll ∧
    FixedHeader.decode (Rdr.ofList [0x10, 0x00]) = .ok (⟨⟨.Connect, 0⟩, 0⟩, ⟨0, []⟩) ∧
    VariablePacket.decodeWith trivialImpls (Rdr.ofList [0x10, 0x00]) none =
      .ok (.ConnectPacket ⟨⟨⟨.Connect, 0⟩, 0⟩⟩, ⟨0, []⟩) ∧
    ((∃ k, k ≤ (⟨⟨.Connect, 0⟩, 0⟩ : FixedHeader).remaining_length ∧
        (⟨0, []⟩ : Rdr).bytes = (⟨0, []⟩ : Rdr).bytes.drop k) ∧
      ∀ r : Rdr, r.limit = 0 → read1 r = .error .UnexpectedEof) :=
  ⟨trivialImpls_ReadLegalAll, rfl, rfl,
    c5_bounded_consumption trivialImpls trivialImpls_ReadLegalAll [0x10, 0x00]
      ⟨⟨.Connect, 0⟩, 0⟩ ⟨0, []⟩ (.ConnectPacket ⟨⟨⟨.Connect, 0⟩, 0⟩⟩) ⟨0, []⟩ rfl rfl⟩

/-- Claim C6.  When the aggregate dispatcher has successfully parsed a fixed
header whose control type matches none of the dispatched cases, it fails with
`UnrecognizedFixedHeader` carrying that parsed header. -/
theorem c6_unmatched_control_type (I : Impls) (r r₁ : Rdr) (fh : FixedHeader)
    (hdec : FixedHeader.decode r = .ok (fh, r₁))
    (hnot : fh.packet_type.control_type ∉
      ([.Connect, .ConnectAcknowledgement, .Publish, .PublishAcknowledgement,
        .PublishReceived, .PublishRelease, .PublishComplete, .PingRequest,
        .PingResponse, .Subscribe, .SubscribeAcknowledgement, .Unsubscribe,
        .UnsubscribeAcknowledgement] : List ControlType)) :
    VariablePacket.decodeWith I r none = .error (.UnrecognizedFixedHeader fh) := by
  simp only [VariablePacket.decodeWith, hdec]
  cases hct : fh.packet_type.control_type
  case Disconnect => rfl
  all_goals (rw [hct] at hnot; simp at hnot)

/-- Claim C6, witness: bytes `0xE0 0x01` parse to a Disconnect header, which
matches no dispatched case, and aggregate decode fails with
`UnrecognizedFixedHeader` carrying it. -/
theorem c6_witness :
    FixedHeader.decode (Rdr.ofList [0xE0, 0x01]) = .ok (⟨⟨.Disconnect, 0⟩, 1⟩, ⟨0, []⟩) ∧
    (⟨⟨.Disconnect, 0⟩, 1⟩ : FixedHeader).packet_type.control_type ∉
      ([.Connect, .ConnectAcknowledgement, .Publish, .PublishAcknowledgement,
        .PublishReceived, .PublishRelease, .PublishComplete, .PingRequest,
        .PingResponse, .Subscribe, .SubscribeAcknowledgement, .Unsubscribe,
        .UnsubscribeAcknowledgement] : List ControlType) ∧
    VariablePacket.decodeWith trivialImpls (Rdr.ofList [0xE0, 0x01]) none =
      .error (.UnrecognizedFixedHeader ⟨⟨.Disconnect, 0⟩, 1⟩) :=
  ⟨rfl, by decide,
    c6_unmatched_control_type trivialImpls (Rdr.ofList [0xE0, 0x01]) ⟨0, []⟩
      ⟨⟨.Disconnect, 0⟩, 1⟩ rfl (by decide)⟩

/-- Claim C7.  The blanket encode for any kind satisfying the Packet contract
writes the fixed header first, then the variable headers, then the payload, in
that order; a payload encoding failure is returned wrapped as the kind's
`PayloadError` case. -/
theorem c7_encode_order_and_payload_wrap {P Payload PE : Type}
    (ops : PacketOps P Payload PE) (p : P) :
    (∀ vh pl, ops.encode_variable_headers p = .ok vh →
      ops.payload_encode (ops.payload p) = .ok pl →
      Packet.encode ops p = .ok ((ops.fixed_header p).encode ++ vh ++ pl)) ∧
    (∀ vh e, ops.encode_variable_headers p = .ok vh →
      ops.payload_encode (ops.payload p) = .error e →
      Packet.encode ops p = .error (.PayloadError e)) := by
  constructor
  · intro vh pl hvh hpl
    simp only [Packet.encode, hvh, hpl]
  · intro vh e hvh hpe
    simp only [Packet.encode, hvh, hpe]

/-- Claim C7, witness: the write order at the Disconnect packet. -/
theorem c7_witness :
    DisconnectPacket.ops.encode_variable_headers DisconnectPacket.new = .ok [] ∧
    DisconnectPacket.ops.payload_encode (DisconnectPacket.ops.payload DisconnectPacket.new) =
      .ok [] ∧
    Packet.encode DisconnectPacket.ops DisconnectPacket.new =
      .ok ((DisconnectPacket.ops.fixed_header DisconnectPacket.new).encode ++ [] ++ []) :=
  ⟨rfl, rfl,
    (c7_encode_order_and_payload_wrap DisconnectPacket.ops DisconnectPacket.new).1
      [] [] rfl rfl⟩

/-- Claim C8.  The blanket decode for any kind satisfying the Packet contract:
with a caller-supplied fixed header it reads no header from the stream and
calls `decode_packet` with the supplied header; with none it decodes a header
from the stream and calls `decode_packet` with the decoded header over the
remaining bytes. -/
theorem c8_decode_with_header_dispatch {P Payload PE : Type}
    (ops : PacketOps P Payload PE) (r r₁ : Rdr) (h fh : FixedHeader)
    (hdec : FixedHeader.decode r = .ok (fh, r₁)) :
    Packet.decodeWith ops r (some h) = ops.decode_packet r h ∧
    Packet.decodeWith ops r none = ops.decode_packet r₁ fh :=
  ⟨rfl, by simp only [Packet.decodeWith, hdec]⟩

/-- Claim C8, witness: both decode paths at the Disconnect packet, with a
deliberately unrelated supplied header for the first path. -/
theorem c8_witness :
    FixedHeader.decode (Rdr.ofList [0xE0, 0x00]) = .ok (⟨⟨.Disconnect, 0⟩, 0⟩, ⟨0, []⟩) ∧
    Packet.decodeWith DisconnectPacket.ops (Rdr.ofList [0xE0, 0x00]) (some ⟨⟨.Connect, 0⟩, 7⟩) =
      DisconnectPacket.ops.decode_packet (Rdr.ofList [0xE0, 0x00]) ⟨⟨.Connect, 0⟩, 7⟩ ∧
    Packet.decodeWith DisconnectPacket.ops (Rdr.ofList [0xE0, 0x00]) none =
      DisconnectPacket.ops.decode_packet ⟨0, []⟩ ⟨⟨.Disconnect, 0⟩, 0⟩ :=
  ⟨rfl,
    (c8_decode_with_header_dispatch DisconnectPacket.ops (Rdr.ofList [0xE0, 0x00]) ⟨0, []⟩
      ⟨⟨.Connect, 0⟩, 7⟩ ⟨⟨.Disconnect, 0⟩, 0⟩ rfl).1,
    (c8_decode_with_header_dispatch DisconnectPacket.ops (Rdr.ofList [0xE0, 0x00]) ⟨0, []⟩
      ⟨⟨.Connect, 0⟩, 7⟩ ⟨⟨.Disconnect, 0⟩, 0⟩ rfl).2⟩

/-- Claim C9.  The Disconnect packet: construction builds the fixed header
from Disconnect's default packet type with remaining length 0 and a unit
payload; variable-header encoding writes nothing and always succeeds; the
variable-header length is always 0; `decode_packet` reads nothing and wraps
the supplied header with the unit payload; encoding the constructed packet
yields exactly `0xE0 0x00`; and decoding those bytes yields the constructed
Disconnect packet (empty payload) with nothing left over. -/
theorem c9_disconnect_packet_behaviour :
    DisconnectPacket.new = ⟨FixedHeader.new (PacketType.with_default .Disconnect) 0, ()⟩ ∧
    (∀ p, DisconnectPacket.ops.encode_variable_headers p = .ok []) ∧
    (∀ p, DisconnectPacket.ops.encoded_variable_headers_length p = 0) ∧
    (∀ r fh, DisconnectPacket.ops.decode_packet r fh = .ok (⟨fh, ()⟩, r)) ∧
    Packet.encode DisconnectPacket.ops DisconnectPacket.new = .ok [0xE0, 0x00] ∧
    Packet.decodeWith DisconnectPacket.ops (Rdr.ofList [0xE0, 0x00]) none =
      .ok (DisconnectPacket.new, Rdr.ofList []) :=
  ⟨rfl, fun _ => rfl, fun _ => rfl, fun _ _ => rfl, rfl, rfl⟩

/-- Claim C10.  `DisconnectPacket::decode_packet` is total and never fails:
for every byte source and every supplied fixed header — whatever its control
type, flags or remaining length — it returns the packet storing the supplied
header verbatim with the unit payload, reading nothing and validating
nothing. -/
theorem c10_decode_packet_total_no_validation :
    ∀ (r : Rdr) (fh : FixedHeader),
      DisconnectPacket.ops.decode_packet r fh = .ok (⟨fh, ()⟩, r) :=
  fun _ _ => rfl

end Mqtt
